import Mathlib

/-!
Shallow embedding of the `python-poloniex` API wrapper
(`poloniex/__init__.py` and `poloniex/ratelimit.py`) and proofs about its
retry, nonce, rate-limit and dispatch behaviour.
-/

namespace Polo

/-- Python exception kinds the wrapper can raise: `requests.exceptions.RequestException`,
`PoloniexError`, its subclass `RetryException`, and the built-ins reachable from the
code (`AttributeError`, `KeyError`, `TypeError`, `ValueError`, `IndexError`). -/
inductive PyErr : Type
  | requestException (msg : String)
  | poloniexError (msg : String)
  | retryException (msg : String)
  | attributeError (inner : PyErr)
  | keyError
  | typeError (msg : String)
  | valueError (msg : String)
  | indexError (msg : String)
  deriving Repr, DecidableEq

/-- Message text of an exception, as `text_type(problem)` would render it. -/
def pyErrMsg : PyErr → String
  | .requestException m => m
  | .poloniexError m => m
  | .retryException m => m
  | .attributeError e => pyErrMsg e
  | .keyError => "True"
  | .typeError m => m
  | .valueError m => m
  | .indexError m => m

/-- A decoded HTTP response body: `resp.json()` either raises `ValueError`
(`Body.invalid`) or yields a JSON object, modelled as an optional `error`
field plus the rest of the decoded payload. -/
inductive Body (α : Type) : Type
  | invalid
  | ok (errField : Option String) (payload : α)
  deriving Repr, DecidableEq

/-- ASCII lower-casing of one character, as `str.lower()` does on the ASCII
messages the code inspects. -/
def asciiLower (c : Char) : Char :=
  if 65 ≤ c.toNat ∧ c.toNat ≤ 90 then Char.ofNat (c.toNat + 32) else c

/-- Python `str.lower()` on the ASCII messages the code inspects. -/
def pyLower (s : String) : String := String.mk (s.data.map asciiLower)

/-- Boolean infix test on character lists: the needle occurs contiguously. -/
def listContains (needle : List Char) : List Char → Bool
  | [] => needle.isEmpty
  | c :: rest => needle.isPrefixOf (c :: rest) || listContains needle rest

/-- Python substring test `needle in hay`. -/
def strContains (hay needle : String) : Bool := listContains needle.toList hay.toList

/-- Split a character list at every character satisfying the predicate,
keeping (possibly empty) groups between separators. -/
def splitOnPred (p : Char → Bool) : List Char → List (List Char)
  | [] => [[]]
  | c :: rest =>
    let r := splitOnPred p rest
    if p c then [] :: r
    else
      match r with
      | [] => [[c]]
      | g :: gs => (c :: g) :: gs

/-- Python `str.split()` with no argument: split on whitespace runs, dropping
empty pieces. -/
def pySplitWs (s : String) : List String :=
  ((splitOnPred Char.isWhitespace s.data).filter (fun t => t ≠ [])).map
    (fun t => String.mk t)

/-- Digit-sequence value, when the character list is a nonempty run of decimal
digits. -/
def digitsVal (cs : List Char) : Option Nat :=
  if cs ≠ [] ∧ cs.all Char.isDigit then
    some (cs.foldl (fun a c => a * 10 + (c.toNat - 48)) 0)
  else none

/-- Python `int(s)` on a whitespace-free token: an optional sign followed by
decimal digits, `None` (ValueError) otherwise. -/
def pyInt (s : String) : Option Int :=
  match s.toList with
  | '-' :: rest => (digitsVal rest).map (fun n => -(n : Int))
  | '+' :: rest => (digitsVal rest).map (fun n => (n : Int))
  | cs => (digitsVal cs).map (fun n => (n : Int))

/-- The token `out['error'].split('.')[0].split()[-1]` that the nonce branch of
`_handleResponse` feeds to `int`; `none` when the list is empty (IndexError). -/
def nonceTok (e : String) : Option String :=
  (pySplitWs (String.mk ((splitOnPred (fun c => c = '.') e.data).headD []))).getLast?

/-- Embedding of `PoloniexAPI._handleResponse`: decode the body, and route the
`error` field.  Returns the raised-or-returned outcome together with the new
value of `self._nonce` (the nonce branch assigns it). -/
def handleResponse {α : Type} (nonce : Int) (b : Body α) : Except PyErr α × Int :=
  match b with
  | .invalid => (.error (.poloniexError "Invalid json response returned"), nonce)
  | .ok none payload => (.ok payload, nonce)
  | .ok (some e) _payload =>
    if strContains e "Nonce must be greater" then
      match nonceTok e with
      | none => (.error (.indexError "list index out of range"), nonce)
      | some tok =>
        match pyInt tok with
        | none =>
          (.error (.valueError ("invalid literal for int() with base 10: " ++ tok)), nonce)
        | some n => (.error (.requestException ("PoloniexError " ++ e)), n)
    else if strContains (pyLower e) "please try again" then
      (.error (.requestException ("PoloniexError " ++ e)), nonce)
    else
      (.error (.poloniexError e), nonce)

/-- Whether an exception is a `RequestException` — the only class the retry
wrapper catches. -/
def isReqExc : PyErr → Bool
  | .requestException _ => true
  | _ => false

/-- Outcome of the retry wrapper: a returned value, `RetryException` after
exhausting the delays (carrying the last caught failure), or an exception the
wrapper does not catch, propagating from the first attempt at which it occurs. -/
inductive RetryOutcome (α : Type) : Type
  | ok (a : α)
  | exhausted (last : PyErr)
  | uncaught (e : PyErr)
  deriving Repr, DecidableEq

/-- Observable trace of one run of the retry wrapper: its outcome, the sleeps
performed (in order), and the number of attempts made. -/
structure RetryTrace (α : Type) : Type where
  result : RetryOutcome α
  sleeps : List Nat
  attempts : Nat
  deriving Repr, DecidableEq

/-- Embedding of `PoloniexAPI._retry`: iterate `itertools.chain(self.retries, [None])`,
attempting the wrapped state-mutating operation once per delay; return on success,
catch `RequestException` and sleep the current delay, and raise `RetryException`
when the sentinel `None` delay is reached.  Other exceptions propagate. -/
def retryRun {σ α : Type} (f : σ → Except PyErr α × σ) : List Nat → σ → RetryTrace α × σ
  | [], s =>
    let r := f s
    match r.1 with
    | .ok a => (⟨.ok a, [], 1⟩, r.2)
    | .error e =>
      if isReqExc e then (⟨.exhausted e, [], 1⟩, r.2)
      else (⟨.uncaught e, [], 1⟩, r.2)
  | d :: rest, s =>
    let r := f s
    match r.1 with
    | .ok a => (⟨.ok a, [], 1⟩, r.2)
    | .error e =>
      if isReqExc e then
        let q := retryRun f rest r.2
        (⟨q.1.result, d :: q.1.sleeps, q.1.attempts + 1⟩, q.2)
      else (⟨.uncaught e, [], 1⟩, r.2)

/-- State of the wrapped operation before attempt `k` (0-indexed), were every
earlier attempt to have been made. -/
def stateAt {σ α : Type} (f : σ → Except PyErr α × σ) (s : σ) : Nat → σ
  | 0 => s
  | k + 1 => (f (stateAt f s k)).2

/-- Outcome of attempt `k` (0-indexed) of the wrapped operation. -/
def outcomeAt {σ α : Type} (f : σ → Except PyErr α × σ) (s : σ) (k : Nat) :
    Except PyErr α :=
  (f (stateAt f s k)).1

/-- Client-side observable state threaded through a dispatcher call: the stored
`self._nonce`, the number of rate-permit acquisitions performed by the coach,
the number of HTTP sends issued, and the nonces attached to sent requests. -/
structure DispatchState : Type where
  nonce : Int
  acquisitions : Nat
  sends : Nat
  sentNonces : List Int
  deriving Repr, DecidableEq

/-- Events of one `_make_request` run, used to express where the nonce lock is
held. -/
inductive Ev : Type
  | coachAcquire
  | lockAcquire
  | nonceIncr
  | signCompute
  | netSend
  | lockRelease
  deriving Repr, DecidableEq, BEq

/-- Result of one `_make_request` run: the returned-or-raised outcome, the
updated client state, and the event trace. -/
structure ReqResult (α : Type) : Type where
  result : Except PyErr α
  state : DispatchState
  events : List Ev
  deriving Repr

/-- Embedding of `PoloniexPublicAPI._make_request`: acquire the coach, send the
GET request, and feed the response to `_handleResponse`. -/
def make_request_pub {α : Type} (st : DispatchState) (body : Body α) : ReqResult α :=
  let st1 := { st with acquisitions := st.acquisitions + 1 }
  let hr := handleResponse st1.nonce body
  ⟨hr.1, { st1 with nonce := hr.2, sends := st1.sends + 1 },
    [Ev.coachAcquire, Ev.netSend]⟩

/-- Embedding of `PoloniexPrivateAPI._make_request`: acquire the coach, enter
`with self.nonce_lock` (raising when the stored lock is `None`), increment the
nonce, attach it, compute the HMAC-SHA512 signature headers, POST, and feed the
response (a function of the sent nonce) to `_handleResponse`.  The `with` block
spans through the send and the response handling, so the lock-release event
comes last. -/
def make_request_priv {α : Type} (key secret : String) (lock : Option Unit)
    (st : DispatchState) (respOf : Int → Body α) : ReqResult α :=
  let st1 := { st with acquisitions := st.acquisitions + 1 }
  match lock with
  | none =>
    ⟨.error (.typeError "NoneType object does not support the context manager protocol"),
      st1, [Ev.coachAcquire]⟩
  | some _ =>
    let n := st1.nonce + 1
    let hr := handleResponse n (respOf n)
    ⟨hr.1,
      { st1 with nonce := hr.2, sends := st1.sends + 1,
                 sentNonces := st1.sentNonces ++ [n] },
      [Ev.coachAcquire, Ev.lockAcquire, Ev.nonceIncr, Ev.signCompute, Ev.netSend,
       Ev.lockRelease]⟩

/-- Index of the first occurrence of an event in a trace (length when absent). -/
def idxOfEv (e : Ev) : List Ev → Nat
  | [] => 0
  | x :: xs => if x = e then 0 else idxOfEv e xs + 1

/-- Exact runtime type of the client object, as tested by `type(self) is ...`
in `PoloniexAPI.__call__`. -/
inductive RT : Type
  | baseT
  | publicT
  | privateT
  | combinedT
  deriving Repr, DecidableEq, BEq

def REQEUST_URL_public : String := "http://poloniex.com/public"

def REQEUST_URL_private : String := "http://poloniex.com/tradingApi"

/-- Python dict literal with `Bool` keys: later duplicate keys override earlier
ones; lookup of an absent key is `none` (KeyError). -/
def pyDictLookup (pairs : List (Bool × String)) (k : Bool) : Option String :=
  pairs.foldl (fun acc p => if p.1 = k then some p.2 else acc) none

/-- The URL-selection expression of `PoloniexAPI.__call__`: a dict keyed by the
two exact-type checks, indexed at `True`. -/
def urlSelect (t : RT) : Option String :=
  pyDictLookup
    [(t = RT.publicT, REQEUST_URL_public), (t = RT.privateT, REQEUST_URL_private)]
    true

/-- Map the retry wrapper's outcome back to the exception `__call__` raises:
exhaustion becomes `RetryException('retries exhausted ' + text_type(problem))`. -/
def outcomeToExc {α : Type} : RetryOutcome α → Except PyErr α
  | .ok a => .ok a
  | .exhausted e => .error (.retryException ("retries exhausted " ++ pyErrMsg e))
  | .uncaught e => .error e

/-- Observable log of a whole `__call__`: outcome, final client state, number of
attempts made by the retry wrapper, and the sleeps it performed. -/
structure CallLog (α : Type) : Type where
  result : Except PyErr α
  state : DispatchState
  attempts : Nat
  sleeps : List Nat
  deriving Repr

/-- One attempt of the wrapped `_make_request`, dispatched on the exact runtime
type (the private variant is used for every non-public type; it is only
reachable for `RT.privateT`). -/
def attemptStep {α : Type} (t : RT) (key secret : String) (lock : Option Unit)
    (pubBody : Body α) (respOf : Int → Body α) (st : DispatchState) :
    Except PyErr α × DispatchState :=
  match t with
  | .publicT =>
    let r := make_request_pub st pubBody
    (r.result, r.state)
  | _ =>
    let r := make_request_priv key secret lock st respOf
    (r.result, r.state)

/-- Embedding of `PoloniexAPI.__call__`: build the payload, whose URL entry is
the `[True]` lookup above — raising `KeyError` before `_retry` is ever invoked
when the lookup fails — then run `self._retry(self._make_request)`. -/
def callModel {α : Type} (t : RT) (command : String) (key secret : String)
    (lock : Option Unit) (retries : List Nat) (st : DispatchState)
    (pubBody : Body α) (respOf : Int → Body α) : CallLog α :=
  let _args := command
  match urlSelect t with
  | none => ⟨.error .keyError, st, 0, []⟩
  | some _url =>
    let r := retryRun (attemptStep t key secret lock pubBody respOf) retries st
    ⟨outcomeToExc r.1.result, r.2, r.1.attempts, r.1.sleeps⟩

def publicCOMMANDS : List String :=
  ["returnTicker", "return24hVolume", "returnOrderBook", "returnTradeHistory",
   "returnChartData", "returnCurrencies", "returnLoanOrders"]

def privateCOMMANDS : List String :=
  ["returnBalances", "returnCompleteBalances", "returnDepositAddresses",
   "generateNewAddress", "returnDepositsWithdrawals", "returnOpenOrders",
   "returnTradeHistory", "returnAvailableAccountBalances",
   "returnTradableBalances", "returnOpenLoanOffers", "returnOrderTrades",
   "returnActiveLoans", "returnLendingHistory", "createLoanOffer",
   "cancelLoanOffer", "toggleAutoRenew", "buy", "sell", "cancelOrder",
   "moveOrder", "withdraw", "returnFeeInfo", "transferBalance",
   "returnMarginAccountSummary", "marginBuy", "marginSell",
   "getMarginPosition", "closeMarginPosition"]

def combinedCOMMANDS : List String := publicCOMMANDS ++ privateCOMMANDS

/-- The bound method `partial(self, item)` that a successful attribute lookup
returns. -/
inductive Attr : Type
  | boundCommand (item : String)
  deriving Repr, DecidableEq

/-- Python falsiness of a credential: `not self.key` is true for `None` and for
the empty string. -/
def pyFalsy : Option String → Bool
  | none => true
  | some s => s = ""

/-- Embedding of `PoloniexAPI.__getattr__`: a known command becomes a bound
callable, anything else raises `AttributeError(PoloniexError(...))`.  The body
performs no network or coach call, so the client state is returned untouched. -/
def baseGetattr (cmds : List String) (item : String) (st : DispatchState) :
    Except PyErr Attr × DispatchState :=
  if item ∈ cmds then (.ok (.boundCommand item), st)
  else (.error (.attributeError (.poloniexError ("Invalid Command!: " ++ item))), st)

/-- Embedding of `PoloniexPrivateAPI.__getattr__`: missing credentials raise
`AttributeError(PoloniexError(...))` before the command name is even examined;
otherwise defer to the base lookup over `self.COMMANDS`. -/
def privateGetattr (key secret : Option String) (cmds : List String)
    (item : String) (st : DispatchState) : Except PyErr Attr × DispatchState :=
  if pyFalsy key || pyFalsy secret then
    (.error (.attributeError (.poloniexError "An Api Key and Secret needed!")), st)
  else baseGetattr cmds item st

/-- Embedding of `Poloniex.__getattr__`: private commands go through the
credential check; everything else goes to the public lookup over the combined
command list. -/
def poloniexGetattr (key secret : Option String) (item : String)
    (st : DispatchState) : Except PyErr Attr × DispatchState :=
  if item ∈ privateCOMMANDS then privateGetattr key secret combinedCOMMANDS item st
  else baseGetattr combinedCOMMANDS item st

/-- Embedding of the nonce and lock initialisation in
`PoloniexPrivateAPI.__init__`: `self._nonce, self.nonce_lock = start_nonce,
nonce_lock`, with `_nonce` replaced by the wall clock when `start_nonce` is
`None`.  No default lock is ever created. -/
def privateInit (now : Int) (start_nonce : Option Int) (nonce_lock : Option Unit) :
    Int × Option Unit :=
  (match start_nonce with | some n => n | none => now, nonce_lock)

/-- State of a `RateLimitEnforcer`: the timer thread's `ident` (set once the
thread is started), the semaphore's available permit count, and the configured
`callLimit`. -/
structure EnforcerState : Type where
  timerIdent : Option Nat
  avail : Nat
  callLimit : Nat
  deriving Repr, DecidableEq

/-- Embedding of `RateLimitEnforcer.__init__`.  Modelled from the spec for the
absent `poloniex.custom_threading` module: a `Semaphore(callLimit)` starts with
`callLimit` permits, and a `RecurrentTimer` thread that has not been started has
`ident` equal to `None` (standard thread semantics; the spec requires the Clock
not to run until started). -/
def enforcerInit (callLimit : Nat) : EnforcerState :=
  ⟨none, callLimit, callLimit⟩

/-- Modelled from the spec: starting the absent `custom_threading.RecurrentTimer`
thread assigns it an ident. -/
def timerStart (s : EnforcerState) : EnforcerState :=
  { s with timerIdent := some 0 }

/-- Modelled from the spec: the absent `custom_threading.Semaphore.acquire`
blocks (`none`) when no permit is available, otherwise consumes one permit. -/
def semAcquire (s : EnforcerState) : Option EnforcerState :=
  if s.avail = 0 then none else some { s with avail := s.avail - 1 }

/-- Modelled from the spec: the absent `custom_threading.Semaphore.clear`
(the timer callback) hard-resets the permit count to the configured capacity. -/
def semClear (s : EnforcerState) : EnforcerState :=
  { s with avail := s.callLimit }

/-- Embedding of `RateLimitEnforcer.wait`: start the timer only when
`self.timer.ident is not None`, then acquire the semaphore. -/
def wait (s : EnforcerState) : Option EnforcerState :=
  let s1 := if s.timerIdent ≠ none then timerStart s else s
  semAcquire s1

/-- Embedding of `RateLimitEnforcer.__exit__`: it does nothing — completing a
request restores no permit. -/
def exitEnforcer (s : EnforcerState) : EnforcerState := s

/-- Operations applied to an enforcer between (or at) timer ticks. -/
inductive GateOp : Type
  | wait
  | exit
  | clear
  deriving Repr, DecidableEq, BEq

/-- Run a sequence of enforcer operations; `none` when some `wait` blocks. -/
def runGate : EnforcerState → List GateOp → Option EnforcerState
  | s, [] => some s
  | s, op :: ops =>
    match op with
    | .wait =>
      match wait s with
      | none => none
      | some s1 => runGate s1 ops
    | .exit => runGate (exitEnforcer s) ops
    | .clear => runGate (semClear s) ops

def countWaits : List GateOp → Nat
  | [] => 0
  | GateOp.wait :: ops => countWaits ops + 1
  | _ :: ops => countWaits ops

/-- The two operations the source performs on the stored nonce: the increment
`self._nonce += 1` of `_make_request` (which hands the new value to the
request), and the forced assignment `self._nonce = int(...)` of the
`_handleResponse` nonce branch. -/
inductive NonceOp : Type
  | incr
  | force (n : Int)
  deriving Repr, DecidableEq

/-- One nonce operation: the new stored value, and the handed-out value if the
operation hands one to a request. -/
def nonceStep : Int → NonceOp → Int × Option Int
  | c, .incr => (c + 1, some (c + 1))
  | _, .force n => (n, none)

/-- Run a sequence of nonce operations, collecting the handed-out values in
order. -/
def nonceRun : Int → List NonceOp → Int × List Int
  | c, [] => (c, [])
  | c, op :: ops =>
    let r := nonceStep c op
    let q := nonceRun r.1 ops
    (q.1, r.2.toList ++ q.2)

/-- A wrapped operation whose every attempt behaves the same way: the retry
wrapper applied to an operation that ignores its (unit) state. -/
def oneShot {α : Type} (r : Except PyErr α) : Unit → Except PyErr α × Unit :=
  fun _ => (r, ())

/-- Whether an outcome is a raised `RequestException` (the transient class). -/
def excIsReq {α : Type} : Except PyErr α → Bool
  | .error e => isReqExc e
  | .ok _ => false

/-- Server error field that contains the transient marker "please try again"
but also the (earlier-tested) nonce marker with no parseable number. -/
def eC2 : String := "Nonce must be greater, please try again"

/-- Server nonce error reporting a minimum below the client's stored nonce. -/
def eC4 : String := "Nonce must be greater than 50. You provided 40."

/-- Operation failing transiently on attempts 0-2 and succeeding on attempt 3. -/
def retryW1 : Nat → Except PyErr Nat × Nat :=
  fun k => (if k < 3 then .error (.requestException "boom") else .ok 42, k + 1)

/-- Operation failing transiently on every attempt, with a distinguished message
on attempt 3. -/
def retryW2 : Nat → Except PyErr Nat × Nat :=
  fun k => (.error (.requestException (if k = 3 then "last" else "early")), k + 1)

theorem stateAt_shift {σ α : Type} (f : σ → Except PyErr α × σ) (s : σ) (k : Nat) :
    stateAt f (f s).2 k = stateAt f s (k + 1) := by
  induction k with
  | zero => rfl
  | succ k ih => simp only [stateAt, ih]

theorem outcomeAt_shift {σ α : Type} (f : σ → Except PyErr α × σ) (s : σ) (k : Nat) :
    outcomeAt f (f s).2 k = outcomeAt f s (k + 1) := by
  simp only [outcomeAt, stateAt_shift]

theorem retryRun_attempts_le {σ α : Type} (f : σ → Except PyErr α × σ)
    (ds : List Nat) (s : σ) :
    ((retryRun f ds s).1).attempts ≤ ds.length + 1 := by
  induction ds generalizing s with
  | nil =>
    simp only [retryRun]
    cases (f s).1 with
    | ok a => simp
    | error e =>
      by_cases he : isReqExc e <;> simp [he]
  | cons d rest ih =>
    simp only [retryRun]
    cases (f s).1 with
    | ok a => simp
    | error e =>
      by_cases he : isReqExc e <;> simp [he]
      exact ih _

theorem retryRun_attempts_pos {σ α : Type} (f : σ → Except PyErr α × σ)
    (ds : List Nat) (s : σ) :
    1 ≤ ((retryRun f ds s).1).attempts := by
  cases ds with
  | nil =>
    simp only [retryRun]
    cases (f s).1 with
    | ok a => simp
    | error e => by_cases he : isReqExc e <;> simp [he]
  | cons d rest =>
    simp only [retryRun]
    cases (f s).1 with
    | ok a => simp
    | error e => by_cases he : isReqExc e <;> simp [he]

theorem retryRun_success {σ α : Type} (f : σ → Except PyErr α × σ)
    (ds : List Nat) (s : σ) (j : Nat) (a : α)
    (hj : j ≤ ds.length) (hok : outcomeAt f s j = .ok a)
    (hfail : ∀ i < j, ∃ m, outcomeAt f s i = .error (.requestException m)) :
    (retryRun f ds s).1 = ⟨.ok a, ds.take j, j + 1⟩ := by
  induction j generalizing ds s with
  | zero =>
    have h0 : (f s).1 = .ok a := hok
    cases ds <;> simp [retryRun, h0]
  | succ j ih =>
    obtain ⟨m, hm⟩ := hfail 0 (Nat.succ_pos j)
    have h0 : (f s).1 = .error (.requestException m) := hm
    cases ds with
    | nil => exact absurd hj (by simp)
    | cons d rest =>
      have hj' : j ≤ rest.length := Nat.le_of_succ_le_succ hj
      have hok' : outcomeAt f (f s).2 j = .ok a := by
        rw [outcomeAt_shift]; exact hok
      have hfail' : ∀ i < j, ∃ m, outcomeAt f (f s).2 i =
          .error (.requestException m) := by
        intro i hi
        rw [outcomeAt_shift]
        exact hfail (i + 1) (Nat.succ_lt_succ hi)
      have := ih rest (f s).2 hj' hok' hfail'
      simp [retryRun, h0, isReqExc, this]

theorem retryRun_exhausted {σ α : Type} (f : σ → Except PyErr α × σ)
    (ds : List Nat) (s : σ)
    (hfail : ∀ i ≤ ds.length, ∃ m, outcomeAt f s i = .error (.requestException m)) :
    ∃ m, outcomeAt f s ds.length = .error (.requestException m) ∧
      (retryRun f ds s).1 = ⟨.exhausted (.requestException m), ds, ds.length + 1⟩ := by
  induction ds generalizing s with
  | nil =>
    obtain ⟨m, hm⟩ := hfail 0 (Nat.le_refl 0)
    have h0 : (f s).1 = .error (.requestException m) := hm
    exact ⟨m, hm, by simp [retryRun, h0, isReqExc]⟩
  | cons d rest ih =>
    obtain ⟨m0, hm0⟩ := hfail 0 (Nat.zero_le _)
    have h0 : (f s).1 = .error (.requestException m0) := hm0
    have hfail' : ∀ i ≤ rest.length, ∃ m, outcomeAt f (f s).2 i =
        .error (.requestException m) := by
      intro i hi
      rw [outcomeAt_shift]
      exact hfail (i + 1) (Nat.succ_le_succ hi)
    obtain ⟨m, hm, hrun⟩ := ih (f s).2 hfail'
    refine ⟨m, ?_, ?_⟩
    · show outcomeAt f s (rest.length + 1) = _
      rw [← outcomeAt_shift]; exact hm
    · simp [retryRun, h0, isReqExc, hrun]

/-- C1: for every delay sequence of length `N` and every wrapped operation,
`PoloniexAPI._retry` attempts the operation at most `N + 1` times; a success at
attempt `j` (0-indexed, after transient failures) is returned immediately after
exactly `j + 1` attempts with the first `j` delays slept in order; and when all
`N + 1` attempts raise `RequestException` it raises the `RetryException`
retries-exhausted error carrying the last underlying failure. -/
theorem retry_policy_spec {σ α : Type} (f : σ → Except PyErr α × σ)
    (ds : List Nat) (s : σ) :
    ((retryRun f ds s).1.attempts ≤ ds.length + 1)
    ∧ (∀ j a, j ≤ ds.length → outcomeAt f s j = .ok a →
        (∀ i < j, ∃ m, outcomeAt f s i = .error (.requestException m)) →
        (retryRun f ds s).1 = ⟨.ok a, ds.take j, j + 1⟩)
    ∧ ((∀ i ≤ ds.length, ∃ m, outcomeAt f s i = .error (.requestException m)) →
        ∃ m, outcomeAt f s ds.length = .error (.requestException m) ∧
          (retryRun f ds s).1 = ⟨.exhausted (.requestException m), ds, ds.length + 1⟩ ∧
          outcomeToExc ((retryRun f ds s).1.result) =
            .error (.retryException ("retries exhausted " ++ m))) := by
  refine ⟨retryRun_attempts_le f ds s,
    fun j a hj hok hfail => retryRun_success f ds s j a hj hok hfail, fun hfail => ?_⟩
  obtain ⟨m, hm, hrun⟩ := retryRun_exhausted f ds s hfail
  exact ⟨m, hm, hrun, by rw [hrun]; rfl⟩

theorem retry_policy_spec_witness :
    (retryRun retryW1 [0, 2, 5] 0).1 = ⟨.ok 42, [0, 2, 5], 4⟩
    ∧ (retryRun retryW2 [0, 2, 5] 0).1 =
        ⟨.exhausted (.requestException "last"), [0, 2, 5], 4⟩ := by
  constructor
  · exact (retry_policy_spec retryW1 [0, 2, 5] 0).2.1 3 42 (by decide) rfl
      (by intro i hi; interval_cases i <;> exact ⟨"boom", rfl⟩)
  · obtain ⟨m, hm, hrun, -⟩ := (retry_policy_spec retryW2 [0, 2, 5] 0).2.2
      (by
        intro i hi
        simp only [List.length_cons, List.length_nil] at hi
        interval_cases i <;> exact ⟨_, rfl⟩)
    have hm3 : outcomeAt retryW2 0 3 = .error (.requestException "last") := rfl
    rw [List.length_cons, List.length_cons, List.length_cons, List.length_nil] at hm
    rw [hm3] at hm
    injection hm with h1
    injection h1 with h2
    rw [← h2] at hrun
    exact hrun

/-- C2 is false as stated: the error field `eC2` contains "please try again"
(case-insensitively), yet `_handleResponse` takes the nonce branch first and
raises `ValueError` from `int()`, which the retry wrapper does not catch, so
the response is neither re-raised as `RequestException` nor retried. -/
theorem error_classification_counterexample :
    strContains (pyLower eC2) "please try again" = true
    ∧ (handleResponse (0 : Int) (Body.ok (some eC2) (0 : Nat))).1 =
        .error (.valueError "invalid literal for int() with base 10: again")
    ∧ excIsReq (handleResponse (0 : Int) (Body.ok (some eC2) (0 : Nat))).1 = false
    ∧ (retryRun (oneShot ((handleResponse (0 : Int) (Body.ok (some eC2) (0 : Nat))).1))
          [0, 2, 5] ()).1 =
        ⟨.uncaught (.valueError "invalid literal for int() with base 10: again"), [], 1⟩ := by
  refine ⟨by decide, rfl, by decide, by decide⟩

/-- C2 (amended): an error field containing "please try again"
(case-insensitively) and not containing the case-sensitively tested marker
"Nonce must be greater" is re-raised as a transient `RequestException`; an
error field containing neither marker raises a terminal `PoloniexError`
immediately; an undecodable body raises the terminal protocol `PoloniexError`;
and the retry wrapper propagates any non-`RequestException` outcome at its
first occurrence while re-attempting a `RequestException` whenever delays
remain. -/
theorem error_classification_amended {α : Type} (nonce : Int) (e : String)
    (payload : α) (ds : List Nat) (d : Nat) :
    (strContains e "Nonce must be greater" = false →
      strContains (pyLower e) "please try again" = true →
      handleResponse nonce (Body.ok (some e) payload) =
        (.error (.requestException ("PoloniexError " ++ e)), nonce))
    ∧ (strContains e "Nonce must be greater" = false →
        strContains (pyLower e) "please try again" = false →
        handleResponse nonce (Body.ok (some e) payload) =
          (.error (.poloniexError e), nonce))
    ∧ handleResponse nonce (Body.invalid (α := α)) =
        (.error (.poloniexError "Invalid json response returned"), nonce)
    ∧ (∀ ex : PyErr, isReqExc ex = false →
        (retryRun (oneShot (.error ex : Except PyErr α)) ds ()).1 =
          ⟨.uncaught ex, [], 1⟩)
    ∧ (∀ m : String,
        2 ≤ (retryRun (oneShot (.error (.requestException m) : Except PyErr α))
              (d :: ds) ()).1.attempts) := by
  refine ⟨fun h1 h2 => ?_, fun h1 h2 => ?_, rfl, fun ex hex => ?_, fun m => ?_⟩
  · simp [handleResponse, h1, h2]
  · simp [handleResponse, h1, h2]
  · cases ds <;> simp [retryRun, oneShot, hex]
  · have hpos := retryRun_attempts_pos
      (oneShot (.error (.requestException m) : Except PyErr α)) ds ()
    simp [retryRun, oneShot, isReqExc]
    omega

theorem error_classification_amended_witness :
    handleResponse (9 : Int) (Body.ok (some "Please try again.") (0 : Nat)) =
      (.error (.requestException "PoloniexError Please try again."), 9)
    ∧ handleResponse (9 : Int) (Body.ok (some "Invalid order.") (0 : Nat)) =
      (.error (.poloniexError "Invalid order."), 9)
    ∧ (retryRun (oneShot (.error (.poloniexError "Invalid order.") : Except PyErr Nat))
        [0, 2, 5] ()).1 = ⟨.uncaught (.poloniexError "Invalid order."), [], 1⟩
    ∧ 2 ≤ (retryRun (oneShot (.error (.requestException "PoloniexError Please try again.") :
        Except PyErr Nat)) [0, 2, 5] ()).1.attempts := by
  have h := error_classification_amended (α := Nat) 9 "Please try again." 0 [2, 5] 0
  have h2 := error_classification_amended (α := Nat) 9 "Invalid order." 0 [2, 5] 0
  refine ⟨h.1 (by decide) (by decide), h2.2.1 (by decide) (by decide),
    h2.2.2.2.1 (.poloniexError "Invalid order.") (by decide),
    h.2.2.2.2 "PoloniexError Please try again."⟩

/-- C3: a server nonce error of the parseable form forces `self._nonce` to the
server-reported minimum `n` and raises `RequestException` — transient, so the
outer retry loop re-runs the whole request — and the retried request (run from
stored nonce `n`) re-acquires a permit and carries the nonce `n + 1`, strictly
greater than `n`. -/
theorem nonce_error_resync_spec {α : Type} (cur n : Int) (e : String) (payload : α)
    (key secret : String) (st : DispatchState) (respOf : Int → Body α) (tok : String)
    (hmark : strContains e "Nonce must be greater" = true)
    (htok : nonceTok e = some tok) (hparse : pyInt tok = some n) :
    handleResponse cur (Body.ok (some e) payload) =
      (.error (.requestException ("PoloniexError " ++ e)), n)
    ∧ (make_request_priv key secret (some ()) { st with nonce := n } respOf).state.sentNonces
        = st.sentNonces ++ [n + 1]
    ∧ (make_request_priv key secret (some ()) { st with nonce := n } respOf).state.acquisitions
        = st.acquisitions + 1
    ∧ n < n + 1 := by
  refine ⟨?_, rfl, rfl, by omega⟩
  simp [handleResponse, hmark, htok, hparse]

theorem nonce_error_resync_witness :
    handleResponse (12300 : Int)
        (Body.ok (some "Nonce must be greater than 12345. You provided 12300.") (0 : Nat)) =
      (.error (.requestException
        "PoloniexError Nonce must be greater than 12345. You provided 12300."), 12345)
    ∧ (make_request_priv "k" "s" (some ()) ⟨12345, 0, 0, []⟩
        (fun _ => Body.ok none (0 : Nat))).state.sentNonces = [12346]
    ∧ (12345 : Int) < 12346 := by
  have h := nonce_error_resync_spec (α := Nat) 12300 12345
      "Nonce must be greater than 12345. You provided 12300." 0 "k" "s"
      ⟨12345, 0, 0, []⟩ (fun _ => Body.ok none (0 : Nat)) "12345"
      (by decide) (by decide) (by decide)
  exact ⟨h.1, h.2.1, h.2.2.2⟩

/-- C4 is false as stated: from stored nonce 100 a forced resynchronization to
the server-reported value 50 lowers the stored nonce, and the next issued nonce
51 is below the previously issued nonce 101. -/
theorem nonce_monotonic_counterexample :
    (make_request_priv "k" "s" (some ()) ⟨100, 0, 0, []⟩
        (fun _ => Body.ok (some eC4) (0 : Nat))).state.nonce = 50
    ∧ (make_request_priv "k" "s" (some ()) ⟨100, 0, 0, []⟩
        (fun _ => Body.ok (some eC4) (0 : Nat))).state.sentNonces = [101]
    ∧ (50 : Int) < 100
    ∧ (make_request_priv "k" "s" (some ())
        (make_request_priv "k" "s" (some ()) ⟨100, 0, 0, []⟩
          (fun _ => Body.ok (some eC4) (0 : Nat))).state
        (fun _ => Body.ok none (0 : Nat))).state.sentNonces = [101, 51]
    ∧ (51 : Int) < 101 := by
  refine ⟨by decide, by decide, by decide, by decide, by decide⟩

theorem nonceRun_incr_mono (c : Int) (ops : List NonceOp)
    (hops : ∀ k : Int, NonceOp.force k ∉ ops) :
    List.Chain' (fun a b => a < b) (nonceRun c ops).2
    ∧ ∀ x ∈ (nonceRun c ops).2, c < x := by
  induction ops generalizing c with
  | nil => simp [nonceRun]
  | cons op ops ih =>
    cases op with
    | incr =>
      have hops' : ∀ k : Int, NonceOp.force k ∉ ops :=
        fun k hk => hops k (List.mem_cons_of_mem _ hk)
      obtain ⟨hchain, hgt⟩ := ih (c + 1) hops'
      constructor
      · simp only [nonceRun, nonceStep, Option.toList]
        refine List.chain'_cons'.mpr ⟨?_, hchain⟩
        intro y hy
        exact hgt y (List.mem_of_mem_head? hy)
      · intro x hx
        simp only [nonceRun, nonceStep, Option.toList, List.cons_append,
          List.nil_append, List.mem_cons] at hx
        rcases hx with rfl | hx
        · omega
        · have := hgt x hx
          omega
    | force k => exact absurd (List.mem_cons_self _ _) (hops k)

/-- C4 (amended): each issued nonce is the stored value plus one, hence
strictly above the stored value, and across any force-free sequence of
operations the handed-out nonces are strictly increasing; the forced
resynchronization of the nonce branch sets the stored nonce to exactly the
server-reported value, which raises it precisely when that value is at least
the current stored nonce and lowers it otherwise. -/
theorem nonce_monotonic_amended {α : Type} (key secret : String) (st : DispatchState)
    (respOf : Int → Body α) (c n : Int) (ops : List NonceOp) (e : String)
    (payload : α) (tok : String) :
    (make_request_priv key secret (some ()) st respOf).state.sentNonces =
        st.sentNonces ++ [st.nonce + 1]
    ∧ st.nonce < st.nonce + 1
    ∧ nonceStep c NonceOp.incr = (c + 1, some (c + 1))
    ∧ nonceStep c (NonceOp.force n) = (n, none)
    ∧ (c ≤ n → c ≤ (nonceStep c (NonceOp.force n)).1)
    ∧ (strContains e "Nonce must be greater" = true → nonceTok e = some tok →
        pyInt tok = some n → (handleResponse c (Body.ok (some e) payload)).2 = n)
    ∧ ((∀ k : Int, NonceOp.force k ∉ ops) →
        List.Chain' (fun a b => a < b) (nonceRun c ops).2
        ∧ ∀ x ∈ (nonceRun c ops).2, c < x) := by
  refine ⟨rfl, by omega, rfl, rfl, fun h => h, fun hmark htok hparse => ?_,
    fun hops => nonceRun_incr_mono c ops hops⟩
  simp [handleResponse, hmark, htok, hparse]

theorem nonce_monotonic_amended_witness :
    (nonceRun (5 : Int) [NonceOp.incr, NonceOp.incr, NonceOp.incr]).2 = [6, 7, 8]
    ∧ List.Chain' (fun a b => a < b)
        (nonceRun (5 : Int) [NonceOp.incr, NonceOp.incr, NonceOp.incr]).2
    ∧ (5 : Int) ≤ (nonceStep 5 (NonceOp.force 7)).1
    ∧ (handleResponse (100 : Int) (Body.ok (some eC4) (0 : Nat))).2 = 50 := by
  have h := nonce_monotonic_amended (α := Nat) "k" "s" ⟨0, 0, 0, []⟩
    (fun _ => Body.ok none 0) 5 7 [NonceOp.incr, NonceOp.incr, NonceOp.incr]
    eC4 0 "50"
  have h50 := nonce_monotonic_amended (α := Nat) "k" "s" ⟨0, 0, 0, []⟩
    (fun _ => Body.ok none 0) 100 50 [] eC4 0 "50"
  refine ⟨by decide, ?_, h.2.2.2.2.1 (by decide), ?_⟩
  · exact (h.2.2.2.2.2.2 (by rintro k hk; simp at hk)).1
  · exact h50.2.2.2.2.2.1 (by decide) (by decide) (by decide)

/-- C5: every call on an exact `Poloniex` instance fails with `KeyError` at the
URL-selection dict lookup in `__call__`, with zero retry attempts, zero permit
acquisitions, no nonce consumed and nothing sent; and a URL is selected exactly
for the exact types `PoloniexPublicAPI` and `PoloniexPrivateAPI`. -/
theorem combined_type_keyerror {α : Type} (command key secret : String)
    (lock : Option Unit) (retries : List Nat) (st : DispatchState)
    (pubBody : Body α) (respOf : Int → Body α) :
    callModel RT.combinedT command key secret lock retries st pubBody respOf =
      ⟨.error .keyError, st, 0, []⟩
    ∧ ∀ t : RT, (urlSelect t).isSome = true ↔ (t = RT.publicT ∨ t = RT.privateT) := by
  refine ⟨rfl, ?_⟩
  intro t
  cases t <;> simp [urlSelect, pyDictLookup]

/-- C6: an unknown command name fails at attribute lookup with
`AttributeError(PoloniexError("Invalid Command!: ..."))`, and any lookup on a
private client with a missing (None or empty) key or secret fails with
`AttributeError(PoloniexError("An Api Key and Secret needed!"))`; both leave
the client state — permit acquisitions, sends, nonce — untouched. -/
theorem config_error_fail_fast (cmds : List String) (key secret : Option String)
    (item : String) (st : DispatchState) :
    (item ∉ cmds → baseGetattr cmds item st =
      (.error (.attributeError (.poloniexError ("Invalid Command!: " ++ item))), st))
    ∧ ((pyFalsy key || pyFalsy secret) = true →
        privateGetattr key secret cmds item st =
          (.error (.attributeError (.poloniexError "An Api Key and Secret needed!")), st)) := by
  constructor
  · intro hitem
    simp [baseGetattr, hitem]
  · intro hcred
    simp [privateGetattr, hcred]

theorem config_error_fail_fast_witness :
    baseGetattr combinedCOMMANDS "bogusCommand" ⟨0, 0, 0, []⟩ =
      (.error (.attributeError (.poloniexError "Invalid Command!: bogusCommand")),
        ⟨0, 0, 0, []⟩)
    ∧ privateGetattr none none privateCOMMANDS "returnBalances" ⟨0, 0, 0, []⟩ =
      (.error (.attributeError (.poloniexError "An Api Key and Secret needed!")),
        ⟨0, 0, 0, []⟩) := by
  refine ⟨(config_error_fail_fast combinedCOMMANDS none none "bogusCommand"
      ⟨0, 0, 0, []⟩).1 (by decide),
    (config_error_fail_fast privateCOMMANDS none none "returnBalances"
      ⟨0, 0, 0, []⟩).2 (by decide)⟩

/-- C7 exhibits a code bug: after construction the timer is indeed not running
(`ident` is None), as the claim states; but `wait` calls `timer.start()` only
when `timer.ident is not None`, i.e. only when the timer was already started,
so the first `wait` — and every subsequent one — leaves the refill timer
unstarted, contradicting the claim, the spec's lazy-start requirement, and the
code's own comment "start the timer once". -/
theorem wait_never_starts_timer :
    (enforcerInit 6).timerIdent = none
    ∧ (wait (enforcerInit 6)).map EnforcerState.timerIdent = some none
    ∧ ((wait (enforcerInit 6)).bind wait).map EnforcerState.timerIdent = some none := by
  refine ⟨rfl, by decide, by decide⟩

theorem wait_step (s : EnforcerState) :
    wait s = if s.avail = 0 then none
      else some ⟨if s.timerIdent ≠ none then some 0 else s.timerIdent,
        s.avail - 1, s.callLimit⟩ := by
  unfold wait timerStart semAcquire
  by_cases ht : s.timerIdent ≠ none <;> by_cases ha : s.avail = 0 <;>
    simp [ht, ha]

theorem runGate_clear_free (s : EnforcerState) (ops : List GateOp)
    (s' : EnforcerState) (hnc : GateOp.clear ∉ ops) (h : runGate s ops = some s') :
    countWaits ops + s'.avail = s.avail ∧ s'.callLimit = s.callLimit := by
  induction ops generalizing s with
  | nil =>
    simp only [runGate, Option.some.injEq] at h
    subst h
    simp [countWaits]
  | cons op ops ih =>
    have hnc' : GateOp.clear ∉ ops := fun hm => hnc (List.mem_cons_of_mem _ hm)
    cases op with
    | wait =>
      by_cases ha : s.avail = 0
      · rw [runGate, wait_step s, if_pos ha] at h
        exact Option.noConfusion h
      · have h' : runGate ⟨if s.timerIdent ≠ none then some 0 else s.timerIdent,
            s.avail - 1, s.callLimit⟩ ops = some s' := by
          rw [runGate, wait_step s, if_neg ha] at h
          exact h
        obtain ⟨hc, hl⟩ := ih _ hnc' h'
        have hc' : countWaits ops + s'.avail = s.avail - 1 := hc
        have hl' : s'.callLimit = s.callLimit := hl
        have hw : countWaits (GateOp.wait :: ops) = countWaits ops + 1 := rfl
        refine ⟨?_, hl'⟩
        rw [hw]
        omega
    | exit =>
      rw [runGate] at h
      obtain ⟨hc, hl⟩ := ih _ hnc' h
      have hc' : countWaits ops + s'.avail = s.avail := hc
      have hw : countWaits (GateOp.exit :: ops) = countWaits ops := rfl
      rw [hw]
      exact ⟨hc', hl⟩
    | clear => exact absurd (List.mem_cons_self _ _) hnc

theorem runGate_reachable_le (s : EnforcerState) (ops : List GateOp)
    (s' : EnforcerState) (h : runGate s ops = some s')
    (hle : s.avail ≤ s.callLimit) : s'.avail ≤ s'.callLimit := by
  induction ops generalizing s with
  | nil =>
    simp only [runGate, Option.some.injEq] at h
    subst h
    exact hle
  | cons op ops ih =>
    cases op with
    | wait =>
      by_cases ha : s.avail = 0
      · rw [runGate, wait_step s, if_pos ha] at h
        exact Option.noConfusion h
      · have h' : runGate ⟨if s.timerIdent ≠ none then some 0 else s.timerIdent,
            s.avail - 1, s.callLimit⟩ ops = some s' := by
          rw [runGate, wait_step s, if_neg ha] at h
          exact h
        exact ih _ h' (show s.avail - 1 ≤ s.callLimit by omega)
    | exit =>
      rw [runGate] at h
      exact ih _ h hle
    | clear =>
      rw [runGate] at h
      exact ih _ h (show s.callLimit ≤ s.callLimit from Nat.le_refl _)

/-- C8: `__exit__` restores no permit; consequently, in any clear-free segment
(no timer-callback firing) the successful `wait` calls consume permits one for
one, so at most the initially available permits — and from any reachable state
at most `callLimit` — `wait` calls can return before exhaustion, after which
`wait` blocks until `clear` next fires. -/
theorem rate_gate_bound (s s' : EnforcerState) (ops : List GateOp)
    (hrun : runGate s ops = some s') :
    exitEnforcer s = s
    ∧ (GateOp.clear ∉ ops → countWaits ops + s'.avail = s.avail)
    ∧ (GateOp.clear ∉ ops → countWaits ops ≤ s.avail)
    ∧ (s.avail ≤ s.callLimit → s'.avail ≤ s'.callLimit)
    ∧ (GateOp.clear ∉ ops → s.avail ≤ s.callLimit → countWaits ops ≤ s.callLimit)
    ∧ (s'.avail = 0 → wait s' = none) := by
  refine ⟨rfl, fun hnc => (runGate_clear_free s ops s' hnc hrun).1,
    fun hnc => ?_, fun hle => runGate_reachable_le s ops s' hrun hle,
    fun hnc hle => ?_, fun hz => ?_⟩
  · have := (runGate_clear_free s ops s' hnc hrun).1
    omega
  · have := (runGate_clear_free s ops s' hnc hrun).1
    omega
  · rw [wait_step s', hz]
    simp

theorem rate_gate_bound_witness :
    runGate (enforcerInit 2) [GateOp.wait, GateOp.exit, GateOp.wait] =
      some ⟨none, 0, 2⟩
    ∧ countWaits [GateOp.wait, GateOp.exit, GateOp.wait] ≤ 2
    ∧ wait ⟨none, 0, 2⟩ = none := by
  have h := rate_gate_bound (enforcerInit 2) ⟨none, 0, 2⟩
    [GateOp.wait, GateOp.exit, GateOp.wait] (by decide)
  refine ⟨by decide, h.2.2.2.2.1 (by simp) (by decide), h.2.2.2.2.2 rfl⟩

/-- C9: in the private request path the nonce lock is acquired before the nonce
increment and released only after the network send: at every nonce-increment,
signature-computation and send event of the `_make_request` trace, strictly
more lock acquisitions than lock releases precede, and the nonce increment
occurs before the send. -/
theorem nonce_lock_span {α : Type} (key secret : String) (st : DispatchState)
    (respOf : Int → Body α) :
    (∀ p : Fin (make_request_priv key secret (some ()) st respOf).events.length,
      ((make_request_priv key secret (some ()) st respOf).events.get p = Ev.nonceIncr
        ∨ (make_request_priv key secret (some ()) st respOf).events.get p = Ev.signCompute
        ∨ (make_request_priv key secret (some ()) st respOf).events.get p = Ev.netSend) →
      ((make_request_priv key secret (some ()) st respOf).events.take p.1).count
          Ev.lockRelease
        < ((make_request_priv key secret (some ()) st respOf).events.take p.1).count
          Ev.lockAcquire)
    ∧ idxOfEv Ev.nonceIncr (make_request_priv key secret (some ()) st respOf).events
        < idxOfEv Ev.netSend (make_request_priv key secret (some ()) st respOf).events := by
  constructor
  · intro p hp
    obtain ⟨v, hv⟩ := p
    have hv6 : v < 6 := hv
    interval_cases v
    · rcases hp with h | h | h <;> exact Ev.noConfusion h
    · rcases hp with h | h | h <;> exact Ev.noConfusion h
    · exact Nat.zero_lt_one
    · exact Nat.zero_lt_one
    · exact Nat.zero_lt_one
    · rcases hp with h | h | h <;> exact Ev.noConfusion h
  · show (2 : Nat) < 4
    omega

theorem nonce_lock_span_witness :
    ((make_request_priv "k" "s" (some ()) ⟨0, 0, 0, []⟩
        (fun _ => Body.ok none (0 : Nat))).events.take 2).count Ev.lockRelease
      < ((make_request_priv "k" "s" (some ()) ⟨0, 0, 0, []⟩
        (fun _ => Body.ok none (0 : Nat))).events.take 2).count Ev.lockAcquire := by
  exact (nonce_lock_span "k" "s" ⟨0, 0, 0, []⟩ (fun _ => Body.ok none (0 : Nat))).1
    ⟨2, by decide⟩ (Or.inl rfl)

/-- C10 is false as stated for the Poloniex variant it covers: an exact
`Poloniex` client constructed without a nonce lock fails with `KeyError` at the
URL-selection dict lookup of `__call__`, with zero permit acquisitions, zero
attempts and nothing sent — the `with self.nonce_lock` entry is never reached,
so the failure does not occur after a rate permit has been consumed. -/
theorem missing_lock_counterexample :
    (callModel RT.combinedT "returnBalances" "k" "s" none [0, 2, 5]
        ⟨0, 0, 0, []⟩ (Body.ok none (0 : Nat)) (fun _ => Body.ok none (0 : Nat))).result
      = .error .keyError
    ∧ (callModel RT.combinedT "returnBalances" "k" "s" none [0, 2, 5]
        ⟨0, 0, 0, []⟩ (Body.ok none (0 : Nat))
        (fun _ => Body.ok none (0 : Nat))).state.acquisitions = 0
    ∧ (callModel RT.combinedT "returnBalances" "k" "s" none [0, 2, 5]
        ⟨0, 0, 0, []⟩ (Body.ok none (0 : Nat))
        (fun _ => Body.ok none (0 : Nat))).attempts = 0 := by
  exact ⟨rfl, rfl, rfl⟩

/-- C10 (amended): a client constructed without supplying `nonce_lock` stores
`None` and no default lock is ever created; on a `PoloniexPrivateAPI` client a
private request then acquires one rate permit and fails at the
`with self.nonce_lock` entry, leaving the nonce unconsumed and nothing sent;
on an exact `Poloniex` client the call instead fails earlier, with `KeyError`
at URL selection, before any permit acquisition, nonce consumption or send, so
the lock entry is never reached. -/
theorem missing_lock_amended {α : Type} (key secret command : String) (now : Int)
    (start_nonce : Option Int) (st : DispatchState) (respOf : Int → Body α)
    (retries : List Nat) (pubBody : Body α) :
    (privateInit now start_nonce none).2 = none
    ∧ (make_request_priv key secret none st respOf).result =
        .error (.typeError "NoneType object does not support the context manager protocol")
    ∧ (make_request_priv key secret none st respOf).state =
        { st with acquisitions := st.acquisitions + 1 }
    ∧ callModel RT.combinedT command key secret none retries st pubBody respOf =
        ⟨.error .keyError, st, 0, []⟩ := by
  exact ⟨rfl, rfl, rfl, rfl⟩

end Polo
